import Mathlib

/-!
# kubenotify: the reconciliation and notification engine of `pkg/controller`

A shallow embedding of `pkg/controller/controller.go`:

* the Kubernetes objects an informer can put on the queue (`Obj`), with the
  pointer fields of the API types (`Spec.Replicas`, `Spec.Selector`) kept as
  `Option`, so that a nil dereference is a visible outcome (`none`);
* `MetaNamespaceKeyFunc`, the client-go key function the controller calls;
* the message rendering of `doGenerateMessageAndSend`;
* the Target store (`map[string]*Target`) as an association list;
* `processResource`, `generateMessageAndSend`, `doGenerateMessageAndSend` and
  the loop body of `processEvents` as state-passing functions.

Collaborators outside the repository are inputs of the embedding: the pod
lookup, the notifier and the clock are read from a `World` value supplied with
each event, and the SHA-256 digest is a function parameter `sum`, so that the
results hold for every digest function.  Log output is not part of the state.
-/

namespace Kubenotify

/-! ## Kubernetes objects -/

/-- The part of `meta_v1.ObjectMeta` the controller reads. -/
structure ObjectMeta where
  Namespace : String
  Name : String
  deriving DecidableEq, Repr

/-- The part of `meta_v1.LabelSelector` the controller reads. -/
structure LabelSelector where
  MatchLabels : List (String × String)
  deriving DecidableEq, Repr

/-- The fields of `DeploymentSpec` / `StatefulSetSpec` the controller reads.
Both are pointers in the API types (`*int32`, `*LabelSelector`). -/
structure WorkloadSpec where
  Replicas : Option Int
  Selector : Option LabelSelector
  deriving DecidableEq, Repr

/-- The fields of `DeploymentStatus` / `StatefulSetStatus` the controller reads. -/
structure WorkloadStatus where
  UpdatedReplicas : Int
  ReadyReplicas : Int
  deriving DecidableEq, Repr

/-- An `apps_v1.Deployment`. -/
structure Deployment where
  ObjectMeta : ObjectMeta
  Spec : WorkloadSpec
  Status : WorkloadStatus
  deriving DecidableEq, Repr

/-- An `apps_v1.StatefulSet`. -/
structure StatefulSet where
  ObjectMeta : ObjectMeta
  Spec : WorkloadSpec
  Status : WorkloadStatus
  deriving DecidableEq, Repr

/-- The dynamic type of an `interface{}` value found in `Event.obj` or
`Target.obj`.  `explicitKey` is a `cache.ExplicitKey`; `other` is any further
value, with its object metadata when it has an accessor (a tombstone
`cache.DeletedFinalStateUnknown` is `other none`). -/
inductive Obj where
  | deployment (d : Deployment)
  | statefulSet (s : StatefulSet)
  | explicitKey (k : String)
  | other (objMeta : Option ObjectMeta)
  deriving DecidableEq, Repr

/-- The result of `meta.Accessor(obj)`: the metadata of the object, when it has some. -/
def Obj.accessor : Obj → Option ObjectMeta
  | .deployment d => some d.ObjectMeta
  | .statefulSet s => some s.ObjectMeta
  | .explicitKey _ => none
  | .other m => m

/-- The client-go function `cache.MetaNamespaceKeyFunc`, returning the Go pair
`(key, err)`: an explicit key is returned as is; an object without metadata
gives `("", err)`; otherwise the key is `<namespace>/<name>`, or `<name>` when
the namespace is empty. -/
def MetaNamespaceKeyFunc (obj : Obj) : String × Option String :=
  match obj with
  | .explicitKey k => (k, none)
  | _ =>
    match obj.accessor with
    | none => ("", some "object has no meta")
    | some m =>
      if m.Namespace.length > 0 then (m.Namespace ++ "/" ++ m.Name, none)
      else (m.Name, none)

/-! ## Pods -/

/-- The `v1.ContainerState` pointers, each reduced to whether it is non-nil. -/
structure ContainerState where
  Waiting : Bool
  Running : Bool
  Terminated : Bool
  deriving DecidableEq, Repr

/-- The part of `v1.ContainerStatus` the controller reads. -/
structure ContainerStatus where
  Name : String
  State : ContainerState
  ImageID : String
  deriving DecidableEq, Repr

/-- The part of `v1.Pod` the controller reads. -/
structure Pod where
  Name : String
  Phase : String
  ContainerStatuses : List ContainerStatus
  deriving DecidableEq, Repr

/-! ## Rendering -/

/-- The `%v` rendering of an `int32`. -/
def fmtInt (n : Int) : String := toString n

/-- Lines 231-235: the status phrase, chosen on `readyReplicas == replicas`. -/
def statusStr (updatedReplicas readyReplicas replicas : Int) : String :=
  if readyReplicas = replicas then
    "is in a healthy state now (" ++ fmtInt readyReplicas ++ "/" ++ fmtInt replicas ++ ")"
  else
    "is rolling out an update, " ++ fmtInt updatedReplicas ++ " replicas updated out of "
      ++ fmtInt replicas ++ ", " ++ fmtInt readyReplicas ++ " ready"

/-- Line 236: `fmt.Sprintf("*%v %v*", key, str)`. -/
def header (key : String) (updatedReplicas readyReplicas replicas : Int) : String :=
  "*" ++ key ++ " " ++ statusStr updatedReplicas readyReplicas replicas ++ "*"

/-- Lines 247-255: the coarse state label of a container. -/
def stateStr (state : ContainerState) : String :=
  if state.Waiting then "Waiting"
  else if state.Running then "Running"
  else if state.Terminated then "Terminated"
  else ""

/-- Lines 246-259: the text written for one container status. -/
def containerLines (container : ContainerStatus) : String :=
  "\n\t\tContainer: *" ++ container.Name ++ "*"
    ++ (if (stateStr container.State).length > 0 then
          " Status: *" ++ stateStr container.State ++ "*" else "")
    ++ "\n\t\t\tImage Id: " ++ container.ImageID

/-- Lines 243-260: the text written for one pod. -/
def podLines (v : Pod) : String :=
  v.ContainerStatuses.foldl (fun acc container => acc ++ containerLines container)
    ("\n\n\tPod: *" ++ v.Name ++ "* Phase: *" ++ v.Phase ++ "*")

/-- Lines 242-261: the text written for the pod list. -/
def podsBody (items : List Pod) : String :=
  items.foldl (fun acc v => acc ++ podLines v) ""

/-- Lines 229-264: the message built in the string builder.  `pods` is the
result of the pod lookup; on an error nothing is appended to the header. -/
def renderMessage (key : String) (updatedReplicas readyReplicas replicas : Int)
    (pods : Except String (List Pod)) : String :=
  match pods with
  | .error _ => header key updatedReplicas readyReplicas replicas
  | .ok items => header key updatedReplicas readyReplicas replicas ++ podsBody items

/-! ## Digest formatting -/

/-- The lower-case hexadecimal digit of a nibble, as `%x` writes it. -/
def hexDigit (n : Nat) : Char :=
  match n % 16 with
  | 0 => '0' | 1 => '1' | 2 => '2' | 3 => '3' | 4 => '4' | 5 => '5' | 6 => '6' | 7 => '7'
  | 8 => '8' | 9 => '9' | 10 => 'a' | 11 => 'b' | 12 => 'c' | 13 => 'd' | 14 => 'e' | _ => 'f'

/-- Two hexadecimal digits per byte, high nibble first. -/
def hexChars : List Nat → List Char
  | [] => []
  | b :: bs => hexDigit (b % 256 / 16) :: hexDigit (b % 256) :: hexChars bs

/-- Line 272: `fmt.Sprintf("%x", h.Sum(nil))` on the digest bytes. -/
def hexString (bytes : List Nat) : String := String.mk (hexChars bytes)

/-! ## Controller state -/

/-- The struct `Target` (lines 39-43). -/
structure Target where
  obj : Obj
  lastTimeMessageSent : Int
  lastMessageHash : String
  deriving DecidableEq, Repr

/-- The struct `Event` (lines 34-37). -/
structure Event where
  obj : Obj
  eventType : String
  deriving DecidableEq, Repr

/-- Lookup in the map `c.targets`. -/
def getTarget : List (String × Target) → String → Option Target
  | [], _ => none
  | (k, t) :: m, key => if k = key then some t else getTarget m key

/-- Assignment `c.targets[key] = t`: replaces the entry of `key`, or adds one. -/
def setTarget : List (String × Target) → String → Target → List (String × Target)
  | [], key, t => [(key, t)]
  | (k, t0) :: m, key, t => if k = key then (key, t) :: m else (k, t0) :: setTarget m key t

/-- One call of `handler.Notify`: the message passed and the error returned
(`none` is Go's `nil`). -/
abbrev NotifyCall := String × Option String

/-- The mutable state of the `Controller` (its `targets` map) together with the
record of the calls of `c.handler.Notify` made so far, oldest first. -/
structure Controller where
  targets : List (String × Target)
  sent : List NotifyCall
  deriving DecidableEq, Repr

/-- The answers of the collaborators while one event is processed: the pod
lookup `Pods(namespace).List(selector)`, the notifier, and the two readings of
`time.Now().Unix()` (line 265 and line 269). -/
structure World where
  listPods : String → List (String × String) → Except String (List Pod)
  notify : String → Option String
  nowCheck : Int
  nowSent : Int

/-- The value of an `int64` expression. -/
def wrapInt64 (x : Int) : Int := (x + 2 ^ 63) % 2 ^ 64 - 2 ^ 63

/-! ## Operations -/

/-- The function `doGenerateMessageAndSend` (lines 223-273).  Returns the
Target as the call leaves it and the calls of `Notify` it made.  `sum` is the
SHA-256 digest of the message bytes. -/
def doGenerateMessageAndSend (sum : String → List Nat) (w : World) (target : Target)
    (checkDuplicate : Bool) (ns : String) (updatedReplicas readyReplicas replicas : Int)
    (matchLabels : List (String × String)) : Target × List NotifyCall :=
  let key := (MetaNamespaceKeyFunc target.obj).1
  let message := renderMessage key updatedReplicas readyReplicas replicas
    (w.listPods ns matchLabels)
  if checkDuplicate && message == target.lastMessageHash
      && decide (wrapInt64 (w.nowCheck - target.lastTimeMessageSent) < 5) then
    (target, [])
  else
    ({ target with
        lastTimeMessageSent := w.nowSent
        lastMessageHash := hexString (sum message) },
     [(message, w.notify message)])

/-- The function `generateMessageAndSend` (lines 197-221).  `none` is the
panic of dereferencing a nil `Spec.Replicas` or `Spec.Selector`. -/
def generateMessageAndSend (sum : String → List Nat) (w : World) (target : Target)
    (checkDuplicate : Bool) : Option (Target × List NotifyCall) :=
  match target.obj with
  | .deployment deployment =>
    match deployment.Spec.Replicas, deployment.Spec.Selector with
    | some replicas, some selector =>
      some (doGenerateMessageAndSend sum w target checkDuplicate
        deployment.ObjectMeta.Namespace deployment.Status.UpdatedReplicas
        deployment.Status.ReadyReplicas replicas selector.MatchLabels)
    | _, _ => none
  | .statefulSet statefulset =>
    match statefulset.Spec.Replicas, statefulset.Spec.Selector with
    | some replicas, some selector =>
      some (doGenerateMessageAndSend sum w target checkDuplicate
        statefulset.ObjectMeta.Namespace statefulset.Status.UpdatedReplicas
        statefulset.Status.ReadyReplicas replicas selector.MatchLabels)
    | _, _ => none
  | _ => some (target, [])

/-- The function `processResource` (lines 181-195).  The Target is a pointer
held by the map, so what `generateMessageAndSend` leaves in it is stored under
`key`. -/
def processResource (sum : String → List Nat) (w : World) (c : Controller) (key : String)
    (resource : Obj) (readyReplicas replicas : Int) : Option Controller :=
  match getTarget c.targets key with
  | some target =>
    match generateMessageAndSend sum w { target with obj := resource } true with
    | some (t, calls) => some { targets := setTarget c.targets key t, sent := c.sent ++ calls }
    | none => none
  | none =>
    if readyReplicas = replicas then some c
    else
      match generateMessageAndSend sum w
          { obj := resource, lastTimeMessageSent := 0, lastMessageHash := "" } false with
      | some (t, calls) => some { targets := setTarget c.targets key t, sent := c.sent ++ calls }
      | none => none

/-- The body of the loop of `processEvents` (lines 164-177) for one event taken
from the queue.  When the key function fails the error is logged and `key` is
the empty string it returned. -/
def processEvent (sum : String → List Nat) (c : Controller) (event : Event) (w : World) :
    Option Controller :=
  let key := (MetaNamespaceKeyFunc event.obj).1
  match event.obj with
  | .deployment deployment =>
    match deployment.Spec.Replicas with
    | some replicas =>
      processResource sum w c key event.obj deployment.Status.ReadyReplicas replicas
    | none => none
  | .statefulSet statefulset =>
    match statefulset.Spec.Replicas with
    | some replicas =>
      processResource sum w c key event.obj statefulset.Status.ReadyReplicas replicas
    | none => none
  | _ => some c

/-- The loop of `processEvents` (lines 157-179) over the events the queue
delivers before it shuts down, each with the collaborators' answers at that
moment. -/
def processEvents (sum : String → List Nat) : Controller → List (Event × World) → Option Controller
  | c, [] => some c
  | c, (event, w) :: rest =>
    match processEvent sum c event w with
    | some c2 => processEvents sum c2 rest
    | none => none

/-- The state `New` leaves: an empty `targets` map, nothing sent. -/
def Controller.new : Controller := { targets := [], sent := [] }

/-! ## The data model of the specification, read off the objects -/

/-- The ResourceSnapshot of a Deployment or StatefulSet whose pointer fields
are set: the values `generateMessageAndSend` passes on. -/
structure ResourceSnapshot where
  ns : String
  updatedReplicas : Int
  readyReplicas : Int
  desiredReplicas : Int
  podSelector : List (String × String)
  deriving DecidableEq, Repr

/-- The snapshot carried by an object: defined for a Deployment or StatefulSet
with non-nil `Spec.Replicas` and `Spec.Selector`. -/
def Obj.snapshot : Obj → Option ResourceSnapshot
  | .deployment d =>
    match d.Spec.Replicas, d.Spec.Selector with
    | some replicas, some selector =>
      some ⟨d.ObjectMeta.Namespace, d.Status.UpdatedReplicas, d.Status.ReadyReplicas, replicas,
        selector.MatchLabels⟩
    | _, _ => none
  | .statefulSet s =>
    match s.Spec.Replicas, s.Spec.Selector with
    | some replicas, some selector =>
      some ⟨s.ObjectMeta.Namespace, s.Status.UpdatedReplicas, s.Status.ReadyReplicas, replicas,
        selector.MatchLabels⟩
    | _, _ => none
  | _ => none

/-- Whether the object is of a kind the controller handles. -/
def Obj.supported : Obj → Bool
  | .deployment _ => true
  | .statefulSet _ => true
  | _ => false

/-- An object the loop can process without a nil dereference: of an unhandled
kind, or carrying a snapshot. -/
def Obj.wellFormed (o : Obj) : Bool := !o.supported || o.snapshot.isSome

/-- The identity key of an object: the string `MetaNamespaceKeyFunc` returns. -/
def Obj.key (o : Obj) : String := (MetaNamespaceKeyFunc o).1

/-- The message `doGenerateMessageAndSend` renders for a Target holding `o`. -/
def messageOf (w : World) (o : Obj) (s : ResourceSnapshot) : String :=
  renderMessage o.key s.updatedReplicas s.readyReplicas s.desiredReplicas
    (w.listPods s.ns s.podSelector)

/-- The Target as lines 269-272 leave it after `message` was passed to `Notify`. -/
def dispatched (sum : String → List Nat) (w : World) (target : Target) (message : String) :
    Target :=
  { target with lastTimeMessageSent := w.nowSent, lastMessageHash := hexString (sum message) }

/-- The digest field of a Target is empty or the hexadecimal form of some bytes. -/
def HashOk (t : Target) : Prop :=
  t.lastMessageHash = "" ∨ ∃ bs, t.lastMessageHash = hexString bs

/-- Every Target of the store has a well-formed digest field. -/
def StoreOk (c : Controller) : Prop :=
  ∀ K t, getTarget c.targets K = some t → HashOk t

/-- Some event of the list has key `K` and carries a snapshot that is not fully
ready. -/
def ObservedUnready (evs : List (Event × World)) (K : String) : Prop :=
  ∃ p ∈ evs, ∃ s, p.1.obj.snapshot = some s ∧ p.1.obj.key = K ∧
    s.readyReplicas ≠ s.desiredReplicas

/-! ## Concrete scenarios -/

/-- The Deployment `ns/app` of the scenarios: 3 replicas desired, 1 ready, 0 updated. -/
def appDeployment : Deployment :=
  ⟨⟨"ns", "app"⟩, ⟨some 3, some ⟨[("app", "web")]⟩⟩, ⟨0, 1⟩⟩

/-- The Deployment `ns/app` once all 3 replicas are ready. -/
def appDeploymentReady : Deployment :=
  ⟨⟨"ns", "app"⟩, ⟨some 3, some ⟨[("app", "web")]⟩⟩, ⟨3, 3⟩⟩

/-- A StatefulSet with the namespace and name of `appDeployment`. -/
def appStatefulSet : StatefulSet :=
  ⟨⟨"ns", "app"⟩, ⟨some 2, some ⟨[("app", "db")]⟩⟩, ⟨0, 0⟩⟩

/-- The message rendered for `appDeployment` when no pod is listed. -/
def appMessage : String :=
  "*ns/app is rolling out an update, 0 replicas updated out of 3, 1 ready*"

/-- A moment at which the pod lookup returns no pod and `Notify` succeeds. -/
def quietWorld (now : Int) : World :=
  ⟨fun _ _ => .ok [], fun _ => none, now, now⟩

/-- A moment at which `Notify` returns an error. -/
def notifyFailsWorld (now : Int) : World :=
  ⟨fun _ _ => .ok [], fun _ => some "channel_not_found", now, now⟩

/-- A moment at which the pod lookup returns an error. -/
def lookupFailsWorld (now : Int) : World :=
  ⟨fun _ _ => .error "connection refused", fun _ => none, now, now⟩

/-- A digest function for the concrete examples, none of which depends on the
digest: the code points of the message. -/
def sampleSum (message : String) : List Nat := message.toList.map Char.toNat

/-! ## Lemmas -/

theorem hexDigit_ne_star (n : Nat) : hexDigit n ≠ '*' := by
  unfold hexDigit
  have h : n % 16 < 16 := Nat.mod_lt _ (by decide)
  generalize n % 16 = m at h
  interval_cases m <;> decide

theorem renderMessage_data (key : String) (u r d : Int) (pods : Except String (List Pod)) :
    ∃ rest, (renderMessage key u r d pods).data = '*' :: rest := by
  cases pods <;> simp [renderMessage, header, String.data_append]

theorem renderMessage_ne_hex (key : String) (u r d : Int) (pods : Except String (List Pod))
    (bs : List Nat) : renderMessage key u r d pods ≠ hexString bs := by
  intro h
  obtain ⟨rest, hr⟩ := renderMessage_data key u r d pods
  rw [h] at hr
  cases bs with
  | nil => simp [hexString, hexChars] at hr
  | cons b bs =>
    simp only [hexString, hexChars, List.cons.injEq] at hr
    exact hexDigit_ne_star _ hr.1

theorem renderMessage_ne_empty (key : String) (u r d : Int) (pods : Except String (List Pod)) :
    renderMessage key u r d pods ≠ "" := by
  intro h
  obtain ⟨rest, hr⟩ := renderMessage_data key u r d pods
  rw [h] at hr
  simp at hr

theorem renderMessage_ne_hash (key : String) (u r d : Int) (pods : Except String (List Pod))
    (t : Target) (h : HashOk t) : renderMessage key u r d pods ≠ t.lastMessageHash := by
  rcases h with h | ⟨bs, h⟩
  · rw [h]; exact renderMessage_ne_empty _ _ _ _ _
  · rw [h]; exact renderMessage_ne_hex _ _ _ _ _ _

/-- With a well-formed digest field the duplicate check of line 265 never
holds, so the message is passed to `Notify`. -/
theorem doGenerateMessageAndSend_of_hashOk (sum : String → List Nat) (w : World)
    (target : Target) (checkDuplicate : Bool) (ns : String) (u r d : Int)
    (ml : List (String × String)) (h : HashOk target) :
    doGenerateMessageAndSend sum w target checkDuplicate ns u r d ml =
      (dispatched sum w target (renderMessage target.obj.key u r d (w.listPods ns ml)),
       [(renderMessage target.obj.key u r d (w.listPods ns ml),
         w.notify (renderMessage target.obj.key u r d (w.listPods ns ml)))]) := by
  have hne := renderMessage_ne_hash (MetaNamespaceKeyFunc target.obj).1 u r d
    (w.listPods ns ml) target h
  simp [doGenerateMessageAndSend, dispatched, Obj.key, hne]

theorem doGenerateMessageAndSend_of_not_check (sum : String → List Nat) (w : World)
    (target : Target) (ns : String) (u r d : Int) (ml : List (String × String)) :
    doGenerateMessageAndSend sum w target false ns u r d ml =
      (dispatched sum w target (renderMessage target.obj.key u r d (w.listPods ns ml)),
       [(renderMessage target.obj.key u r d (w.listPods ns ml),
         w.notify (renderMessage target.obj.key u r d (w.listPods ns ml)))]) := by
  simp [doGenerateMessageAndSend, dispatched, Obj.key]

theorem generateMessageAndSend_of_snapshot (sum : String → List Nat) (w : World)
    (target : Target) (checkDuplicate : Bool) (s : ResourceSnapshot)
    (h : target.obj.snapshot = some s) :
    generateMessageAndSend sum w target checkDuplicate =
      some (doGenerateMessageAndSend sum w target checkDuplicate s.ns s.updatedReplicas
        s.readyReplicas s.desiredReplicas s.podSelector) := by
  unfold generateMessageAndSend
  cases ho : target.obj with
  | deployment d =>
    rw [ho] at h
    simp only [Obj.snapshot] at h
    split at h <;> simp_all
    subst h; simp_all
  | statefulSet d =>
    rw [ho] at h
    simp only [Obj.snapshot] at h
    split at h <;> simp_all
    subst h; simp_all
  | explicitKey k => rw [ho] at h; simp [Obj.snapshot] at h
  | other m => rw [ho] at h; simp [Obj.snapshot] at h


theorem getTarget_setTarget_same (m : List (String × Target)) (key : String) (t : Target) :
    getTarget (setTarget m key t) key = some t := by
  induction m with
  | nil => simp [setTarget, getTarget]
  | cons p m ih =>
    obtain ⟨k, t0⟩ := p
    by_cases hk : k = key
    · simp [setTarget, getTarget, hk]
    · simp [setTarget, getTarget, hk, ih]

theorem getTarget_setTarget_other (m : List (String × Target)) (key K : String) (t : Target)
    (h : K ≠ key) : getTarget (setTarget m key t) K = getTarget m K := by
  induction m with
  | nil => simp [setTarget, getTarget, Ne.symm h]
  | cons p m ih =>
    obtain ⟨k, t0⟩ := p
    by_cases hk : k = key
    · subst hk
      simp [setTarget, getTarget, Ne.symm h]
    · by_cases hK : k = K
      · subst hK
        simp [setTarget, getTarget, hk]
      · simp [setTarget, getTarget, hk, hK, ih]

theorem doGenerateMessageAndSend_obj (sum : String → List Nat) (w : World) (target : Target)
    (checkDuplicate : Bool) (ns : String) (u r d : Int) (ml : List (String × String)) :
    (doGenerateMessageAndSend sum w target checkDuplicate ns u r d ml).1.obj = target.obj := by
  unfold doGenerateMessageAndSend
  dsimp only
  split <;> rfl

theorem doGenerateMessageAndSend_hashOk (sum : String → List Nat) (w : World) (target : Target)
    (checkDuplicate : Bool) (ns : String) (u r d : Int) (ml : List (String × String))
    (h : HashOk target) :
    HashOk (doGenerateMessageAndSend sum w target checkDuplicate ns u r d ml).1 := by
  unfold doGenerateMessageAndSend
  dsimp only
  split
  · exact h
  · exact Or.inr ⟨_, rfl⟩

theorem doGenerateMessageAndSend_shape (sum : String → List Nat) (w : World) (target : Target)
    (checkDuplicate : Bool) (ns : String) (u r d : Int) (ml : List (String × String))
    (t2 : Target) (calls : List NotifyCall)
    (h : doGenerateMessageAndSend sum w target checkDuplicate ns u r d ml = (t2, calls)) :
    t2.obj = target.obj ∧ (HashOk target → HashOk t2) := by
  have h1 := doGenerateMessageAndSend_obj sum w target checkDuplicate ns u r d ml
  have h2 := doGenerateMessageAndSend_hashOk sum w target checkDuplicate ns u r d ml
  rw [h] at h1 h2
  exact ⟨h1, h2⟩

theorem generateMessageAndSend_shape (sum : String → List Nat) (w : World) (target : Target)
    (checkDuplicate : Bool) (t2 : Target) (calls : List NotifyCall)
    (h : generateMessageAndSend sum w target checkDuplicate = some (t2, calls)) :
    t2.obj = target.obj ∧ (HashOk target → HashOk t2) := by
  unfold generateMessageAndSend at h
  split at h
  · split at h
    · simp only [Option.some.injEq] at h
      exact doGenerateMessageAndSend_shape _ _ _ _ _ _ _ _ _ _ _ h
    · simp at h
  · split at h
    · simp only [Option.some.injEq] at h
      exact doGenerateMessageAndSend_shape _ _ _ _ _ _ _ _ _ _ _ h
    · simp at h
  · simp only [Option.some.injEq, Prod.mk.injEq] at h
    rw [← h.1]
    exact ⟨rfl, id⟩

/-- What a returning call of `processResource` does to the state: nothing (an
untracked healthy resource), or one assignment to the entry of `key`. -/
theorem processResource_shape (sum : String → List Nat) (w : World) (c c2 : Controller)
    (key : String) (resource : Obj) (ready replicas : Int)
    (h : processResource sum w c key resource ready replicas = some c2) :
    (c2 = c ∧ getTarget c.targets key = none ∧ ready = replicas) ∨
    (∃ t2 calls, c2 = { targets := setTarget c.targets key t2, sent := c.sent ++ calls } ∧
      t2.obj = resource ∧
      ((∀ t, getTarget c.targets key = some t → HashOk t) → HashOk t2) ∧
      (getTarget c.targets key = none → ready ≠ replicas)) := by
  unfold processResource at h
  split at h
  · rename_i target htarget
    split at h
    · rename_i t calls hg
      simp only [Option.some.injEq] at h
      obtain ⟨hobj, hhash⟩ := generateMessageAndSend_shape _ _ _ _ _ _ hg
      refine Or.inr ⟨t, calls, h.symm, hobj, ?_, ?_⟩
      · intro hall
        exact hhash (hall target htarget)
      · intro hnone
        rw [hnone] at htarget
        simp at htarget
    · simp at h
  · rename_i hnone
    split at h
    · rename_i heq
      simp only [Option.some.injEq] at h
      exact Or.inl ⟨h.symm, hnone, heq⟩
    · rename_i hne
      split at h
      · rename_i t calls hg
        simp only [Option.some.injEq] at h
        obtain ⟨hobj, hhash⟩ := generateMessageAndSend_shape _ _ _ _ _ _ hg
        refine Or.inr ⟨t, calls, h.symm, hobj, ?_, fun _ => hne⟩
        intro _
        exact hhash (Or.inl rfl)
      · simp at h


theorem processEvent_unsupported (sum : String → List Nat) (c : Controller) (e : Event)
    (w : World) (h : e.obj.supported = false) : processEvent sum c e w = some c := by
  unfold processEvent
  cases ho : e.obj with
  | deployment d => rw [ho] at h; simp [Obj.supported] at h
  | statefulSet s => rw [ho] at h; simp [Obj.supported] at h
  | explicitKey k => rfl
  | other m => rfl

theorem snapshot_supported (o : Obj) (s : ResourceSnapshot) (h : o.snapshot = some s) :
    o.supported = true := by
  cases o <;> simp [Obj.snapshot] at h <;> rfl

theorem processEvent_of_snapshot (sum : String → List Nat) (c : Controller) (e : Event)
    (w : World) (s : ResourceSnapshot) (h : e.obj.snapshot = some s) :
    processEvent sum c e w =
      processResource sum w c e.obj.key e.obj s.readyReplicas s.desiredReplicas := by
  unfold processEvent
  cases ho : e.obj with
  | deployment d =>
    rw [ho] at h
    simp only [Obj.snapshot] at h
    split at h
    · rename_i hr hsel
      simp only [Option.some.injEq] at h
      subst h
      simp [hr, Obj.key]
    · simp at h
  | statefulSet d =>
    rw [ho] at h
    simp only [Obj.snapshot] at h
    split at h
    · rename_i hr hsel
      simp only [Option.some.injEq] at h
      subst h
      simp [hr, Obj.key]
    · simp at h
  | explicitKey k => rw [ho] at h; simp [Obj.snapshot] at h
  | other m => rw [ho] at h; simp [Obj.snapshot] at h

theorem processEvent_shape (sum : String → List Nat) (c c2 : Controller) (e : Event)
    (w : World) (h : processEvent sum c e w = some c2) :
    (c2 = c ∧ e.obj.supported = false) ∨
    (e.obj.supported = true ∧ ∃ ready replicas,
      processResource sum w c e.obj.key e.obj ready replicas = some c2) := by
  unfold processEvent at h
  cases ho : e.obj with
  | deployment d =>
    rw [ho] at h
    dsimp only at h
    split at h
    · exact Or.inr ⟨rfl, _, _, h⟩
    · simp at h
  | statefulSet d =>
    rw [ho] at h
    dsimp only at h
    split at h
    · exact Or.inr ⟨rfl, _, _, h⟩
    · simp at h
  | explicitKey k =>
    rw [ho] at h
    simp only [Option.some.injEq] at h
    exact Or.inl ⟨h.symm, rfl⟩
  | other m =>
    rw [ho] at h
    simp only [Option.some.injEq] at h
    exact Or.inl ⟨h.symm, rfl⟩

/-- What a returning iteration of the loop does to the state: nothing, or one
assignment to the entry of the event's key, which then holds the event's
object. -/
theorem processEvent_cases (sum : String → List Nat) (c c2 : Controller) (e : Event)
    (w : World) (h : processEvent sum c e w = some c2) :
    (c2 = c ∧ (e.obj.supported = true → getTarget c.targets e.obj.key = none)) ∨
    (e.obj.supported = true ∧ ∃ t2 calls,
      c2 = { targets := setTarget c.targets e.obj.key t2, sent := c.sent ++ calls } ∧
      t2.obj = e.obj ∧
      ((∀ t, getTarget c.targets e.obj.key = some t → HashOk t) → HashOk t2)) := by
  rcases processEvent_shape sum c c2 e w h with ⟨hc, hs⟩ | ⟨hs, ready, replicas, hp⟩
  · exact Or.inl ⟨hc, fun h2 => by rw [hs] at h2; simp at h2⟩
  · rcases processResource_shape sum w c c2 _ _ ready replicas hp with
      ⟨hc, hnone, _⟩ | ⟨t2, calls, hc, hobj, hhash, _⟩
    · exact Or.inl ⟨hc, fun _ => hnone⟩
    · exact Or.inr ⟨hs, t2, calls, hc, hobj, hhash⟩

/-- An event does not touch the Target of a key other than its own. -/
theorem processEvent_frame (sum : String → List Nat) (c c2 : Controller) (e : Event)
    (w : World) (K : String) (h : processEvent sum c e w = some c2) (hK : K ≠ e.obj.key) :
    getTarget c2.targets K = getTarget c.targets K := by
  rcases processEvent_cases sum c c2 e w h with ⟨hc, _⟩ | ⟨_, t2, calls, hc, _, _⟩
  · rw [hc]
  · rw [hc]
    exact getTarget_setTarget_other _ _ _ _ hK

/-- No event removes a Target. -/
theorem processEvent_keeps (sum : String → List Nat) (c c2 : Controller) (e : Event)
    (w : World) (K : String) (h : processEvent sum c e w = some c2)
    (hK : (getTarget c.targets K).isSome = true) : (getTarget c2.targets K).isSome = true := by
  by_cases hkey : K = e.obj.key
  · rcases processEvent_cases sum c c2 e w h with ⟨hc, _⟩ | ⟨_, t2, calls, hc, _, _⟩
    · rw [hc]; exact hK
    · rw [hc, hkey]
      simp [getTarget_setTarget_same]
  · rw [processEvent_frame sum c c2 e w K h hkey]; exact hK

/-- After an event of a handled kind, the Target under its key, if there is
one, holds the event's object. -/
theorem processEvent_obj (sum : String → List Nat) (c c2 : Controller) (e : Event)
    (w : World) (t : Target) (h : processEvent sum c e w = some c2)
    (hs : e.obj.supported = true) (ht : getTarget c2.targets e.obj.key = some t) :
    t.obj = e.obj := by
  rcases processEvent_cases sum c c2 e w h with ⟨hc, hnone⟩ | ⟨_, t2, calls, hc, hobj, _⟩
  · rw [hc, hnone hs] at ht
    simp at ht
  · rw [hc] at ht
    simp only [getTarget_setTarget_same, Option.some.injEq] at ht
    rw [← ht]; exact hobj

/-- A Target exists under the key of an event carrying a snapshot exactly when
it existed before or the snapshot is not fully ready. -/
theorem processEvent_tracks (sum : String → List Nat) (c c2 : Controller) (e : Event)
    (w : World) (s : ResourceSnapshot) (hs : e.obj.snapshot = some s)
    (h : processEvent sum c e w = some c2) :
    (getTarget c2.targets e.obj.key).isSome = true ↔
      ((getTarget c.targets e.obj.key).isSome = true ∨ s.readyReplicas ≠ s.desiredReplicas) := by
  rw [processEvent_of_snapshot sum c e w s hs] at h
  rcases processResource_shape sum w c c2 _ _ _ _ h with
    ⟨hc, hnone, heq⟩ | ⟨t2, calls, hc, _, _, hne⟩
  · rw [hc, hnone]
    simp [heq]
  · rw [hc]
    simp only [getTarget_setTarget_same, Option.isSome_some, true_iff]
    cases hg : getTarget c.targets e.obj.key with
    | none => exact Or.inr (hne hg)
    | some t => exact Or.inl rfl

/-- A well-formed event is processed without a nil dereference. -/
theorem processEvent_total (sum : String → List Nat) (c : Controller) (e : Event)
    (w : World) (hwf : e.obj.wellFormed = true) : ∃ c2, processEvent sum c e w = some c2 := by
  cases hsup : e.obj.supported with
  | false => exact ⟨c, processEvent_unsupported sum c e w hsup⟩
  | true =>
    simp only [Obj.wellFormed, hsup, Bool.not_true, Bool.false_or] at hwf
    obtain ⟨s, hs⟩ := Option.isSome_iff_exists.mp hwf
    rw [processEvent_of_snapshot sum c e w s hs]
    unfold processResource
    cases getTarget c.targets e.obj.key with
    | some target =>
      have hsn : ({ target with obj := e.obj } : Target).obj.snapshot = some s := hs
      simp only [generateMessageAndSend_of_snapshot sum w _ true s hsn]
      exact ⟨_, rfl⟩
    | none =>
      by_cases heq : s.readyReplicas = s.desiredReplicas
      · simp [heq]
      · have hsn : ({ obj := e.obj, lastTimeMessageSent := 0, lastMessageHash := "" } :
            Target).obj.snapshot = some s := hs
        simp only [heq, if_false, generateMessageAndSend_of_snapshot sum w _ false s hsn]
        exact ⟨_, rfl⟩


theorem storeOk_new : StoreOk Controller.new := by
  intro K t h
  simp [Controller.new, getTarget] at h

theorem processEvent_storeOk (sum : String → List Nat) (c c2 : Controller) (e : Event)
    (w : World) (h : processEvent sum c e w = some c2) (hc : StoreOk c) : StoreOk c2 := by
  rcases processEvent_cases sum c c2 e w h with ⟨heq, _⟩ | ⟨_, t2, calls, heq, _, hhash⟩
  · rw [heq]; exact hc
  · intro K t ht
    rw [heq] at ht
    by_cases hK : K = e.obj.key
    · subst hK
      simp only [getTarget_setTarget_same, Option.some.injEq] at ht
      rw [← ht]
      exact hhash (fun t0 h0 => hc _ t0 h0)
    · rw [getTarget_setTarget_other _ _ _ _ hK] at ht
      exact hc K t ht

theorem processEvents_storeOk (sum : String → List Nat) (evs : List (Event × World)) :
    ∀ (c c2 : Controller), processEvents sum c evs = some c2 → StoreOk c → StoreOk c2 := by
  induction evs with
  | nil =>
    intro c c2 h hc
    simp only [processEvents, Option.some.injEq] at h
    rw [← h]; exact hc
  | cons p evs ih =>
    intro c c2 h hc
    obtain ⟨e, w⟩ := p
    simp only [processEvents] at h
    split at h
    · rename_i c1 h1
      exact ih c1 c2 h (processEvent_storeOk sum c c1 e w h1 hc)
    · simp at h

theorem processEvents_total (sum : String → List Nat) (evs : List (Event × World)) :
    ∀ (c : Controller), (∀ p ∈ evs, p.1.obj.wellFormed = true) →
      ∃ c2, processEvents sum c evs = some c2 := by
  induction evs with
  | nil => intro c _; exact ⟨c, rfl⟩
  | cons p evs ih =>
    intro c hwf
    obtain ⟨e, w⟩ := p
    obtain ⟨c1, h1⟩ := processEvent_total sum c e w (hwf (e, w) (List.mem_cons_self _ _))
    obtain ⟨c2, h2⟩ := ih c1 (fun q hq => hwf q (List.mem_cons_of_mem _ hq))
    exact ⟨c2, by simp [processEvents, h1, h2]⟩

theorem processEvents_append (sum : String → List Nat) (xs ys : List (Event × World)) :
    ∀ (c : Controller), processEvents sum c (xs ++ ys) =
      (processEvents sum c xs).bind (fun c1 => processEvents sum c1 ys) := by
  induction xs with
  | nil => intro c; simp [processEvents]
  | cons p xs ih =>
    intro c
    obtain ⟨e, w⟩ := p
    simp only [List.cons_append, processEvents]
    cases processEvent sum c e w with
    | none => simp
    | some c1 => simp [ih c1]

/-- A Deployment or StatefulSet always has a key: the key function fails only
on objects of other kinds. -/
theorem key_err_unsupported (o : Obj) (h : (MetaNamespaceKeyFunc o).2 ≠ none) :
    o.supported = false := by
  cases o with
  | deployment d =>
    exfalso; apply h
    simp only [MetaNamespaceKeyFunc, Obj.accessor]
    split <;> rfl
  | statefulSet s =>
    exfalso; apply h
    simp only [MetaNamespaceKeyFunc, Obj.accessor]
    split <;> rfl
  | explicitKey k => rfl
  | other m => rfl

/-- An event that is not for identity `K` leaves the Target of `K` as it was. -/
theorem processEvent_frame_identity (sum : String → List Nat) (c c2 : Controller) (e : Event)
    (w : World) (K : String) (h : processEvent sum c e w = some c2)
    (hK : MetaNamespaceKeyFunc e.obj ≠ (K, none)) :
    getTarget c2.targets K = getTarget c.targets K := by
  by_cases hkey : K = e.obj.key
  · have herr : (MetaNamespaceKeyFunc e.obj).2 ≠ none := by
      intro hn
      apply hK
      rw [hkey]
      exact Prod.ext rfl hn
    have hsup := key_err_unsupported e.obj herr
    rw [processEvent_unsupported sum c e w hsup] at h
    simp only [Option.some.injEq] at h
    rw [← h]
  · exact processEvent_frame sum c c2 e w K h hkey

theorem processEvents_frame_identity (sum : String → List Nat) (evs : List (Event × World))
    (K : String) :
    ∀ (c c2 : Controller), processEvents sum c evs = some c2 →
      (∀ p ∈ evs, MetaNamespaceKeyFunc p.1.obj ≠ (K, none)) →
      getTarget c2.targets K = getTarget c.targets K := by
  induction evs with
  | nil =>
    intro c c2 h _
    simp only [processEvents, Option.some.injEq] at h
    rw [← h]
  | cons p evs ih =>
    intro c c2 h hK
    obtain ⟨e, w⟩ := p
    simp only [processEvents] at h
    split at h
    · rename_i c1 h1
      rw [ih c1 c2 h (fun q hq => hK q (List.mem_cons_of_mem _ hq))]
      exact processEvent_frame_identity sum c c1 e w K h1 (hK (e, w) (List.mem_cons_self _ _))
    · simp at h

theorem processEvent_tracks_any (sum : String → List Nat) (c c2 : Controller) (e : Event)
    (w : World) (K : String) (hwf : e.obj.wellFormed = true)
    (h : processEvent sum c e w = some c2) :
    (getTarget c2.targets K).isSome = true ↔
      ((getTarget c.targets K).isSome = true ∨ ObservedUnready [(e, w)] K) := by
  cases hsup : e.obj.supported with
  | false =>
    rw [processEvent_unsupported sum c e w hsup] at h
    simp only [Option.some.injEq] at h
    rw [← h]
    constructor
    · exact Or.inl
    · rintro (h1 | ⟨p, hp, s, hs, _, _⟩)
      · exact h1
      · simp only [List.mem_singleton] at hp
        subst hp
        rw [snapshot_supported _ s hs] at hsup
        simp at hsup
  | true =>
    simp only [Obj.wellFormed, hsup, Bool.not_true, Bool.false_or] at hwf
    obtain ⟨s, hs⟩ := Option.isSome_iff_exists.mp hwf
    by_cases hkey : K = e.obj.key
    · subst hkey
      rw [processEvent_tracks sum c c2 e w s hs h]
      constructor
      · rintro (h1 | h1)
        · exact Or.inl h1
        · exact Or.inr ⟨(e, w), List.mem_singleton.mpr rfl, s, hs, rfl, h1⟩
      · rintro (h1 | ⟨p, hp, s2, hs2, _, hne⟩)
        · exact Or.inl h1
        · simp only [List.mem_singleton] at hp
          subst hp
          rw [hs] at hs2
          simp only [Option.some.injEq] at hs2
          subst hs2
          exact Or.inr hne
    · rw [processEvent_frame sum c c2 e w K h hkey]
      constructor
      · exact Or.inl
      · rintro (h1 | ⟨p, hp, s2, _, hk2, _⟩)
        · exact h1
        · simp only [List.mem_singleton] at hp
          subst hp
          exact absurd hk2.symm hkey

theorem processEvents_tracks (sum : String → List Nat) (evs : List (Event × World))
    (K : String) :
    ∀ (c c2 : Controller), (∀ p ∈ evs, p.1.obj.wellFormed = true) →
      processEvents sum c evs = some c2 →
      ((getTarget c2.targets K).isSome = true ↔
        ((getTarget c.targets K).isSome = true ∨ ObservedUnready evs K)) := by
  induction evs with
  | nil =>
    intro c c2 _ h
    simp only [processEvents, Option.some.injEq] at h
    rw [← h]
    simp [ObservedUnready]
  | cons p evs ih =>
    intro c c2 hwf h
    obtain ⟨e, w⟩ := p
    simp only [processEvents] at h
    split at h
    · rename_i c1 h1
      rw [ih c1 c2 (fun q hq => hwf q (List.mem_cons_of_mem _ hq)) h,
        processEvent_tracks_any sum c c1 e w K (hwf (e, w) (List.mem_cons_self _ _)) h1]
      simp only [ObservedUnready, List.mem_cons, List.not_mem_nil, or_false]
      constructor
      · rintro ((h0 | ⟨q, hq, hrest⟩) | ⟨q, hq, hrest⟩)
        · exact Or.inl h0
        · exact Or.inr ⟨q, Or.inl hq, hrest⟩
        · exact Or.inr ⟨q, Or.inr hq, hrest⟩
      · rintro (h0 | ⟨q, hq | hq, hrest⟩)
        · exact Or.inl (Or.inl h0)
        · exact Or.inl (Or.inr ⟨q, hq, hrest⟩)
        · exact Or.inr ⟨q, hq, hrest⟩
    · simp at h

/-- The rendered message, written out: the header between asterisks, then the
pod lines when the lookup succeeded. -/
theorem renderMessage_text (key : String) (u r d : Int) (pods : Except String (List Pod)) :
    renderMessage key u r d pods =
      (if r = d then
          "*" ++ key ++ " is in a healthy state now (" ++ toString r ++ "/" ++ toString d ++ ")*"
        else
          "*" ++ key ++ " is rolling out an update, " ++ toString u
            ++ " replicas updated out of " ++ toString d ++ ", " ++ toString r ++ " ready*")
        ++ (match pods with
            | .ok items => podsBody items
            | .error _ => "") := by
  have h1 : ∀ x : String, " " ++ ("is in a healthy state now (" ++ x)
      = " is in a healthy state now (" ++ x := fun x => by
    rw [← String.append_assoc]; rfl
  have h2 : ∀ x : String, " " ++ ("is rolling out an update, " ++ x)
      = " is rolling out an update, " ++ x := fun x => by
    rw [← String.append_assoc]; rfl
  cases pods with
  | error e =>
    by_cases h : r = d
    · simp [renderMessage, header, statusStr, fmtInt, h, String.append_assoc, h1]
    · simp [renderMessage, header, statusStr, fmtInt, h, String.append_assoc, h2]
  | ok items =>
    by_cases h : r = d
    · simp [renderMessage, header, statusStr, fmtInt, h, String.append_assoc, h1]
    · simp [renderMessage, header, statusStr, fmtInt, h, String.append_assoc, h2]

/-! ## The claims -/

/-- C1, the code at the failing input: the Deployment `ns/app` (3 desired, 1
ready) is observed at second 100 and the identical event arrives at second 101.
After the first event the Target holds the digest of `appMessage` and the time
100; the second event renders `appMessage` again, one second later, and yet
`Notify` is called a second time: line 265 compares the message itself, not its
digest, with the stored digest. -/
theorem duplicate_within_window_is_sent_again (sum : String → List Nat) :
    ∃ c1 c2,
      processEvent sum Controller.new ⟨.deployment appDeployment, "add"⟩ (quietWorld 100)
        = some c1 ∧
      processEvent sum c1 ⟨.deployment appDeployment, "update"⟩ (quietWorld 101) = some c2 ∧
      getTarget c1.targets "ns/app" =
        some ⟨.deployment appDeployment, 100, hexString (sum appMessage)⟩ ∧
      c1.sent = [(appMessage, none)] ∧
      c2.sent = [(appMessage, none), (appMessage, none)] := by
  refine ⟨⟨[("ns/app", ⟨.deployment appDeployment, 100, hexString (sum appMessage)⟩)],
      [(appMessage, none)]⟩,
    ⟨[("ns/app", ⟨.deployment appDeployment, 101, hexString (sum appMessage)⟩)],
      [(appMessage, none), (appMessage, none)]⟩, rfl, ?_, rfl, rfl, rfl⟩
  have hs : (Obj.deployment appDeployment).snapshot = some ⟨"ns", 0, 1, 3, [("app", "web")]⟩ := rfl
  rw [processEvent_of_snapshot sum _ _ _ _ hs]
  have hk : (Obj.deployment appDeployment).key = "ns/app" := by decide
  simp only [processResource, hk, getTarget, if_true]
  rw [generateMessageAndSend_of_snapshot sum _ _ true _ hs,
    doGenerateMessageAndSend_of_hashOk sum _ _ true _ _ _ _ _ (Or.inr ⟨_, rfl⟩)]
  rfl

/-- C2, counterexample: a fresh Target for `ns/app` (time 0, empty digest) is
passed to `doGenerateMessageAndSend` at second 100 while `Notify` returns an
error; the call of `Notify` is recorded with its error and the Target leaves
the call with `lastTimeMessageSent = 100`, not 0. -/
theorem notify_error_changes_dedup_state :
    (doGenerateMessageAndSend sampleSum (notifyFailsWorld 100)
        ⟨.deployment appDeployment, 0, ""⟩ false "ns" 0 1 3 [("app", "web")]).2
      = [(appMessage, some "channel_not_found")] ∧
    (doGenerateMessageAndSend sampleSum (notifyFailsWorld 100)
        ⟨.deployment appDeployment, 0, ""⟩ false "ns" 0 1 3 [("app", "web")]).1.lastTimeMessageSent
      = 100 ∧
    (doGenerateMessageAndSend sampleSum (notifyFailsWorld 100)
        ⟨.deployment appDeployment, 0, ""⟩ false "ns" 0 1 3 [("app", "web")]).1.lastTimeMessageSent
      ≠ (⟨.deployment appDeployment, 0, ""⟩ : Target).lastTimeMessageSent := by
  decide

/-- C2, amended: for every call of `doGenerateMessageAndSend` in which `Notify`
is called and returns an error, the dedup state of the Target is updated as on
success: `lastTimeMessageSent` becomes the time read after the call of
`Notify` and `lastMessageHash` the hexadecimal digest of the message passed. -/
theorem notify_error_still_updates_dedup_state (sum : String → List Nat) (w : World)
    (target : Target) (checkDuplicate : Bool) (ns : String) (u r d : Int)
    (ml : List (String × String)) (message err : String)
    (h : (doGenerateMessageAndSend sum w target checkDuplicate ns u r d ml).2
      = [(message, some err)]) :
    (doGenerateMessageAndSend sum w target checkDuplicate ns u r d ml).1.lastTimeMessageSent
      = w.nowSent ∧
    (doGenerateMessageAndSend sum w target checkDuplicate ns u r d ml).1.lastMessageHash
      = hexString (sum message) := by
  unfold doGenerateMessageAndSend at h ⊢
  dsimp only at h ⊢
  split
  · rename_i hc
    rw [if_pos hc] at h
    simp at h
  · rename_i hc
    rw [if_neg hc] at h
    simp only [List.cons.injEq, Prod.mk.injEq, and_true] at h
    rw [← h.1]
    exact ⟨rfl, rfl⟩

/-- C2, witness of the amended statement: the call of the counterexample. -/
theorem notify_error_still_updates_dedup_state_witness :
    (doGenerateMessageAndSend sampleSum (notifyFailsWorld 100)
        ⟨.deployment appDeployment, 0, ""⟩ false "ns" 0 1 3 [("app", "web")]).1.lastTimeMessageSent
      = (notifyFailsWorld 100).nowSent ∧
    (doGenerateMessageAndSend sampleSum (notifyFailsWorld 100)
        ⟨.deployment appDeployment, 0, ""⟩ false "ns" 0 1 3 [("app", "web")]).1.lastMessageHash
      = hexString (sampleSum appMessage) :=
  notify_error_still_updates_dedup_state sampleSum (notifyFailsWorld 100)
    ⟨.deployment appDeployment, 0, ""⟩ false "ns" 0 1 3 [("app", "web")] appMessage
    "channel_not_found" (by decide)

/-- C3: when no Target is stored under `key` and `readyReplicas == replicas`,
`processResource` returns with the Target store unchanged, no Target under
`key`, and no call of `Notify` added. -/
theorem healthy_untracked_is_ignored (sum : String → List Nat) (w : World) (c : Controller)
    (key : String) (resource : Obj) (readyReplicas replicas : Int)
    (hnone : getTarget c.targets key = none) (hready : readyReplicas = replicas) :
    ∃ c2, processResource sum w c key resource readyReplicas replicas = some c2 ∧
      c2.targets = c.targets ∧ getTarget c2.targets key = none ∧ c2.sent = c.sent := by
  refine ⟨c, ?_, rfl, hnone, rfl⟩
  simp [processResource, hnone, hready]

/-- C3, witness: the healthy Deployment `ns/app` arriving at the empty store. -/
theorem healthy_untracked_is_ignored_witness :
    ∃ c2, processResource sampleSum (quietWorld 100) Controller.new "ns/app"
        (.deployment appDeploymentReady) 3 3 = some c2 ∧
      c2.targets = Controller.new.targets ∧ getTarget c2.targets "ns/app" = none ∧
      c2.sent = Controller.new.sent :=
  healthy_untracked_is_ignored sampleSum (quietWorld 100) Controller.new "ns/app"
    (.deployment appDeploymentReady) 3 3 (by decide) (by decide)

/-- C4: when no Target is stored under `key`, `readyReplicas != replicas` and
the resource is a Deployment or StatefulSet carrying a snapshot,
`processResource` returns; afterwards the store holds under `key` a Target
whose object is the resource, and exactly one call of `Notify` was added,
whatever the clock, the pod lookup and the rendered message are. -/
theorem unhealthy_untracked_is_tracked_and_notified (sum : String → List Nat) (w : World)
    (c : Controller) (key : String) (resource : Obj) (s : ResourceSnapshot)
    (readyReplicas replicas : Int)
    (hnone : getTarget c.targets key = none) (hne : readyReplicas ≠ replicas)
    (hs : resource.snapshot = some s) :
    ∃ c2 t, processResource sum w c key resource readyReplicas replicas = some c2 ∧
      getTarget c2.targets key = some t ∧ t.obj = resource ∧
      c2.sent = c.sent ++ [(messageOf w resource s, w.notify (messageOf w resource s))] := by
  have hsn : ({ obj := resource, lastTimeMessageSent := 0, lastMessageHash := "" } :
      Target).obj.snapshot = some s := hs
  refine ⟨⟨setTarget c.targets key (dispatched sum w ⟨resource, 0, ""⟩ (messageOf w resource s)),
      c.sent ++ [(messageOf w resource s, w.notify (messageOf w resource s))]⟩,
    dispatched sum w ⟨resource, 0, ""⟩ (messageOf w resource s), ?_,
    getTarget_setTarget_same c.targets key _, rfl, rfl⟩
  simp only [processResource, hnone, if_neg hne,
    generateMessageAndSend_of_snapshot sum w _ false s hsn,
    doGenerateMessageAndSend_of_not_check]
  rfl

/-- C4, witness: the Deployment `ns/app` (3 desired, 1 ready) arriving at the
empty store. -/
theorem unhealthy_untracked_is_tracked_and_notified_witness :
    ∃ c2 t, processResource sampleSum (quietWorld 100) Controller.new "ns/app"
        (.deployment appDeployment) 1 3 = some c2 ∧
      getTarget c2.targets "ns/app" = some t ∧ t.obj = .deployment appDeployment ∧
      c2.sent = Controller.new.sent ++
        [(messageOf (quietWorld 100) (.deployment appDeployment) ⟨"ns", 0, 1, 3, [("app", "web")]⟩,
          (quietWorld 100).notify
            (messageOf (quietWorld 100) (.deployment appDeployment)
              ⟨"ns", 0, 1, 3, [("app", "web")]⟩))] :=
  unhealthy_untracked_is_tracked_and_notified sampleSum (quietWorld 100) Controller.new "ns/app"
    (.deployment appDeployment) ⟨"ns", 0, 1, 3, [("app", "web")]⟩ 1 3 (by decide) (by decide)
    (by decide)

/-- C5: every sequence of well-formed events is processed from the empty store
without a nil dereference, and afterwards a Target exists under a key `K`
exactly when some event of the sequence had key `K` and carried a snapshot
with `readyReplicas != desiredReplicas`.  Moreover no event of any type, in any
state, removes a Target that exists. -/
theorem target_exists_iff_observed_unready (sum : String → List Nat)
    (evs : List (Event × World)) (hwf : ∀ p ∈ evs, p.1.obj.wellFormed = true) :
    (∃ c, processEvents sum Controller.new evs = some c ∧
      ∀ K, ((getTarget c.targets K).isSome = true ↔
        ∃ p ∈ evs, ∃ s, p.1.obj.snapshot = some s ∧ p.1.obj.key = K ∧
          s.readyReplicas ≠ s.desiredReplicas)) ∧
    (∀ (c1 c2 : Controller) (e : Event) (w : World) (K : String),
      processEvent sum c1 e w = some c2 → (getTarget c1.targets K).isSome = true →
      (getTarget c2.targets K).isSome = true) := by
  constructor
  · obtain ⟨c, hc⟩ := processEvents_total sum evs Controller.new hwf
    refine ⟨c, hc, fun K => ?_⟩
    rw [processEvents_tracks sum evs K Controller.new c hwf hc]
    simp [Controller.new, getTarget, ObservedUnready]
  · intro c1 c2 e w K h hK
    exact processEvent_keeps sum c1 c2 e w K h hK

/-- C5, witness: `ns/app` observed degraded, then healthy, then its deletion
reported twice (once with the last object, once with a tombstone). -/
theorem target_exists_iff_observed_unready_witness :
    (∃ c, processEvents sampleSum Controller.new
        [(⟨.deployment appDeployment, "add"⟩, quietWorld 100),
         (⟨.deployment appDeploymentReady, "update"⟩, quietWorld 130),
         (⟨.deployment appDeploymentReady, "delete"⟩, quietWorld 160),
         (⟨.other none, "delete"⟩, quietWorld 161)] = some c ∧
      ∀ K, ((getTarget c.targets K).isSome = true ↔
        ∃ p ∈ [((⟨.deployment appDeployment, "add"⟩ : Event), quietWorld 100),
               (⟨.deployment appDeploymentReady, "update"⟩, quietWorld 130),
               (⟨.deployment appDeploymentReady, "delete"⟩, quietWorld 160),
               (⟨.other none, "delete"⟩, quietWorld 161)],
          ∃ s, p.1.obj.snapshot = some s ∧ p.1.obj.key = K ∧
            s.readyReplicas ≠ s.desiredReplicas)) ∧
    (∀ (c1 c2 : Controller) (e : Event) (w : World) (K : String),
      processEvent sampleSum c1 e w = some c2 → (getTarget c1.targets K).isSome = true →
      (getTarget c2.targets K).isSome = true) :=
  target_exists_iff_observed_unready sampleSum
    [(⟨.deployment appDeployment, "add"⟩, quietWorld 100),
     (⟨.deployment appDeploymentReady, "update"⟩, quietWorld 130),
     (⟨.deployment appDeploymentReady, "delete"⟩, quietWorld 160),
     (⟨.other none, "delete"⟩, quietWorld 161)]
    (by decide)

/-- C6: let `E2` be an event for identity `K` carrying a snapshot, preceded by
any well-formed events (an earlier event `E1` for `K` among them, with events
for other identities before and after it) and followed only by events for
other identities.  Then the sequence is processed without a nil dereference
and, if a Target for `K` exists afterwards, its object is that of `E2` (hence
not that of `E1` when the two differ).  Moreover an event that is not for
identity `K` leaves the Target of `K` (object, time and digest) as it was. -/
theorem last_event_snapshot_wins (sum : String → List Nat) (c0 : Controller)
    (pre mid post : List (Event × World)) (E1 E2 : Event) (w1 w2 : World) (K : String)
    (s2 : ResourceSnapshot)
    (hwf : ∀ p ∈ pre ++ (E1, w1) :: (mid ++ (E2, w2) :: post), p.1.obj.wellFormed = true)
    (hE2 : MetaNamespaceKeyFunc E2.obj = (K, none))
    (hs2 : E2.obj.snapshot = some s2)
    (hpost : ∀ p ∈ post, MetaNamespaceKeyFunc p.1.obj ≠ (K, none)) :
    (∃ c, processEvents sum c0 (pre ++ (E1, w1) :: (mid ++ (E2, w2) :: post)) = some c ∧
      ∀ t, getTarget c.targets K = some t →
        t.obj = E2.obj ∧ (E1.obj ≠ E2.obj → t.obj ≠ E1.obj)) ∧
    (∀ (c1 c2 : Controller) (e : Event) (w : World),
      MetaNamespaceKeyFunc e.obj ≠ (K, none) → processEvent sum c1 e w = some c2 →
      getTarget c2.targets K = getTarget c1.targets K) := by
  constructor
  · obtain ⟨c, hc⟩ := processEvents_total sum _ c0 hwf
    refine ⟨c, hc, ?_⟩
    have hsplit : pre ++ (E1, w1) :: (mid ++ (E2, w2) :: post)
        = (pre ++ (E1, w1) :: mid) ++ ((E2, w2) :: post) := by simp
    rw [hsplit, processEvents_append] at hc
    cases ha : processEvents sum c0 (pre ++ (E1, w1) :: mid) with
    | none => rw [ha] at hc; simp at hc
    | some ca =>
      rw [ha] at hc
      simp only [Option.some_bind, processEvents] at hc
      cases hb : processEvent sum ca E2 w2 with
      | none => rw [hb] at hc; simp at hc
      | some cb =>
        rw [hb] at hc
        dsimp only at hc
        have hkey : E2.obj.key = K := by
          simp only [Obj.key, hE2]
        intro t ht
        rw [processEvents_frame_identity sum post K cb c hc hpost, ← hkey] at ht
        have hobj := processEvent_obj sum ca cb E2 w2 t hb (snapshot_supported _ s2 hs2) ht
        exact ⟨hobj, fun hne h1 => hne (h1 ▸ hobj.symm ▸ rfl)⟩
  · intro c1 c2 e w hK h
    exact processEvent_frame_identity sum c1 c2 e w K h hK

/-- C6, witness: two events for the Deployment `ns/app`, events for the
Deployment `ns/web` and a tombstone interleaved. -/
theorem last_event_snapshot_wins_witness :
    (∃ c, processEvents sampleSum Controller.new
        ([(⟨.deployment ⟨⟨"ns", "web"⟩, ⟨some 1, some ⟨[]⟩⟩, ⟨0, 0⟩⟩, "add"⟩, quietWorld 90)]
          ++ (⟨.deployment appDeployment, "add"⟩, quietWorld 100)
          :: ([(⟨.other none, "delete"⟩, quietWorld 110)]
            ++ (⟨.deployment appDeploymentReady, "update"⟩, quietWorld 120)
            :: [(⟨.deployment ⟨⟨"ns", "web"⟩, ⟨some 1, some ⟨[]⟩⟩, ⟨1, 1⟩⟩, "update"⟩,
                  quietWorld 130)])) = some c ∧
      ∀ t, getTarget c.targets "ns/app" = some t →
        t.obj = (⟨.deployment appDeploymentReady, "update"⟩ : Event).obj ∧
        ((⟨.deployment appDeployment, "add"⟩ : Event).obj
            ≠ (⟨.deployment appDeploymentReady, "update"⟩ : Event).obj →
          t.obj ≠ (⟨.deployment appDeployment, "add"⟩ : Event).obj)) ∧
    (∀ (c1 c2 : Controller) (e : Event) (w : World),
      MetaNamespaceKeyFunc e.obj ≠ ("ns/app", none) →
      processEvent sampleSum c1 e w = some c2 →
      getTarget c2.targets "ns/app" = getTarget c1.targets "ns/app") :=
  last_event_snapshot_wins sampleSum Controller.new
    [(⟨.deployment ⟨⟨"ns", "web"⟩, ⟨some 1, some ⟨[]⟩⟩, ⟨0, 0⟩⟩, "add"⟩, quietWorld 90)]
    [(⟨.other none, "delete"⟩, quietWorld 110)]
    [(⟨.deployment ⟨⟨"ns", "web"⟩, ⟨some 1, some ⟨[]⟩⟩, ⟨1, 1⟩⟩, "update"⟩, quietWorld 130)]
    ⟨.deployment appDeployment, "add"⟩ ⟨.deployment appDeploymentReady, "update"⟩
    (quietWorld 100) (quietWorld 120) "ns/app" ⟨"ns", 3, 3, 3, [("app", "web")]⟩
    (by decide) (by decide) (by decide) (by decide)

/-- C7, counterexample: the Deployment `ns/app` and the StatefulSet `ns/app`
do not get different identity keys: both are stored under `ns/app`. -/
theorem deployment_and_statefulset_share_key :
    ¬ ((MetaNamespaceKeyFunc (.deployment appDeployment)).1
        ≠ (MetaNamespaceKeyFunc (.statefulSet appStatefulSet)).1) ∧
    (MetaNamespaceKeyFunc (.deployment appDeployment)).1 = "ns/app" ∧
    (MetaNamespaceKeyFunc (.statefulSet appStatefulSet)).1 = "ns/app" := by
  decide

/-- C7, amended: the identity key is determined by the namespace and the name
alone, not by the kind.  A Deployment and a StatefulSet that share namespace
and name get the same key, and an event for the StatefulSet, processed while
the store holds a Target under that key, overwrites the object of that Target. -/
theorem key_ignores_kind (sum : String → List Nat) (d : Deployment) (s : StatefulSet)
    (sn : ResourceSnapshot) (hmeta : d.ObjectMeta = s.ObjectMeta)
    (hsn : (Obj.statefulSet s).snapshot = some sn) :
    MetaNamespaceKeyFunc (.deployment d) = MetaNamespaceKeyFunc (.statefulSet s) ∧
    (∀ (c : Controller) (t : Target) (ty : String) (w : World),
      getTarget c.targets (Obj.deployment d).key = some t →
      ∃ c2 t2, processEvent sum c ⟨.statefulSet s, ty⟩ w = some c2 ∧
        getTarget c2.targets (Obj.deployment d).key = some t2 ∧ t2.obj = .statefulSet s) := by
  have hkey : MetaNamespaceKeyFunc (.deployment d) = MetaNamespaceKeyFunc (.statefulSet s) := by
    simp only [MetaNamespaceKeyFunc, Obj.accessor, hmeta]
  refine ⟨hkey, ?_⟩
  intro c t ty w ht
  have hk : (Obj.deployment d).key = (Obj.statefulSet s).key := by
    simp only [Obj.key, hkey]
  rw [hk] at ht ⊢
  have hwf : (⟨.statefulSet s, ty⟩ : Event).obj.wellFormed = true := by
    simp [Obj.wellFormed, hsn]
  obtain ⟨c2, h⟩ := processEvent_total sum c ⟨.statefulSet s, ty⟩ w hwf
  have hsome : (getTarget c2.targets (Obj.statefulSet s).key).isSome = true :=
    processEvent_keeps sum c c2 ⟨.statefulSet s, ty⟩ w _ h (by simp [ht])
  obtain ⟨t2, ht2⟩ := Option.isSome_iff_exists.mp hsome
  exact ⟨c2, t2, h, ht2, processEvent_obj sum c c2 ⟨.statefulSet s, ty⟩ w t2 h rfl ht2⟩

/-- C7, witness of the amended statement: `appDeployment` and `appStatefulSet`. -/
theorem key_ignores_kind_witness :
    MetaNamespaceKeyFunc (.deployment appDeployment)
      = MetaNamespaceKeyFunc (.statefulSet appStatefulSet) ∧
    (∀ (c : Controller) (t : Target) (ty : String) (w : World),
      getTarget c.targets (Obj.deployment appDeployment).key = some t →
      ∃ c2 t2, processEvent sampleSum c ⟨.statefulSet appStatefulSet, ty⟩ w = some c2 ∧
        getTarget c2.targets (Obj.deployment appDeployment).key = some t2 ∧
        t2.obj = .statefulSet appStatefulSet) :=
  key_ignores_kind sampleSum appDeployment appStatefulSet ⟨"ns", 0, 0, 2, [("app", "db")]⟩
    (by decide) (by decide)

/-- C8: an event whose object makes the key function return an error is
dropped by the loop body: the state (Target store and calls of `Notify`) is
returned unchanged. -/
theorem key_failure_drops_event (sum : String → List Nat) (c : Controller) (e : Event)
    (w : World) (herr : (MetaNamespaceKeyFunc e.obj).2 ≠ none) :
    processEvent sum c e w = some c :=
  processEvent_unsupported sum c e w (key_err_unsupported e.obj herr)

/-- C8, witness: the tombstone of a deleted object, which has no metadata. -/
theorem key_failure_drops_event_witness :
    processEvent sampleSum Controller.new ⟨.other none, "delete"⟩ (quietWorld 100)
      = some Controller.new :=
  key_failure_drops_event sampleSum Controller.new ⟨.other none, "delete"⟩ (quietWorld 100)
    (by decide)

/-- C9, counterexample: for `ns/app` with 3 desired, 1 ready and 0 updated
replicas and no pod listed, the message passed to `Notify` is the claimed text
between two asterisks, not the claimed text; likewise for 3 of 3 ready. -/
theorem header_is_wrapped_in_asterisks :
    (processEvent sampleSum Controller.new ⟨.deployment appDeployment, "add"⟩
        (quietWorld 100)).map (fun c => c.sent.map Prod.fst)
      = some ["*ns/app is rolling out an update, 0 replicas updated out of 3, 1 ready*"] ∧
    header "ns/app" 0 1 3
      ≠ "ns/app is rolling out an update, 0 replicas updated out of 3, 1 ready" ∧
    header "ns/app" 3 3 3 = "*ns/app is in a healthy state now (3/3)*" ∧
    header "ns/app" 3 3 3 ≠ "ns/app is in a healthy state now (3/3)" := by
  decide

/-- C9, amended: a call of `doGenerateMessageAndSend` either makes no call of
`Notify` or passes one message (it passes one whenever the duplicate check is
off), and the message starts with the header; the header is
exactly `*K is in a healthy state now (r/d)*` when `r == d` and exactly
`*K is rolling out an update, u replicas updated out of d, r ready*` when
`r != d`, with `K` the key of the Target object and the numbers in decimal.
The header is the whole message when the pod list is empty or the lookup
failed, and is followed by the pod lines otherwise. -/
theorem dispatched_header_text (sum : String → List Nat) (w : World) (target : Target)
    (checkDuplicate : Bool) (ns : String) (u r d : Int) (ml : List (String × String)) :
    ((doGenerateMessageAndSend sum w target checkDuplicate ns u r d ml).2 = [] ∨
     (doGenerateMessageAndSend sum w target checkDuplicate ns u r d ml).2.map Prod.fst =
      [(if r = d then
          "*" ++ target.obj.key ++ " is in a healthy state now (" ++ toString r ++ "/"
            ++ toString d ++ ")*"
        else
          "*" ++ target.obj.key ++ " is rolling out an update, " ++ toString u
            ++ " replicas updated out of " ++ toString d ++ ", " ++ toString r ++ " ready*")
        ++ (match w.listPods ns ml with
            | .ok items => podsBody items
            | .error _ => "")]) ∧
    podsBody [] = "" ∧
    (doGenerateMessageAndSend sum w target false ns u r d ml).2 ≠ [] := by
  refine ⟨?_, rfl, ?_⟩
  · unfold doGenerateMessageAndSend
    dsimp only
    split
    · exact Or.inl rfl
    · right
      simp only [List.map_cons, List.map_nil, List.cons.injEq, and_true]
      exact renderMessage_text _ u r d _
  · rw [doGenerateMessageAndSend_of_not_check]
    simp

/-- C10: in every state reached from the empty store, for every event carrying
a snapshot whose key has a Target, if the pod lookup returns an error then the
loop body returns, the message it renders is the header alone, and that
message is passed to `Notify`, exactly once; the Target then holds the event's
object. -/
theorem lookup_error_sends_header_only (sum : String → List Nat)
    (evs : List (Event × World)) (c : Controller)
    (hreach : processEvents sum Controller.new evs = some c)
    (e : Event) (w : World) (s : ResourceSnapshot) (t : Target) (err : String)
    (hs : e.obj.snapshot = some s)
    (ht : getTarget c.targets e.obj.key = some t)
    (herr : w.listPods s.ns s.podSelector = .error err) :
    ∃ c2 t2, processEvent sum c e w = some c2 ∧
      messageOf w e.obj s
        = header e.obj.key s.updatedReplicas s.readyReplicas s.desiredReplicas ∧
      c2.sent = c.sent ++
        [(header e.obj.key s.updatedReplicas s.readyReplicas s.desiredReplicas,
          w.notify (header e.obj.key s.updatedReplicas s.readyReplicas s.desiredReplicas))] ∧
      getTarget c2.targets e.obj.key = some t2 ∧ t2.obj = e.obj := by
  have hok : HashOk t := processEvents_storeOk sum evs _ c hreach storeOk_new _ t ht
  have hmsg : messageOf w e.obj s
      = header e.obj.key s.updatedReplicas s.readyReplicas s.desiredReplicas := by
    simp only [messageOf, herr, renderMessage]
  have hsn : ({ t with obj := e.obj } : Target).obj.snapshot = some s := hs
  have hok2 : HashOk ({ t with obj := e.obj } : Target) := hok
  refine ⟨⟨setTarget c.targets e.obj.key
        (dispatched sum w { t with obj := e.obj } (messageOf w e.obj s)),
      c.sent ++ [(messageOf w e.obj s, w.notify (messageOf w e.obj s))]⟩,
    dispatched sum w { t with obj := e.obj } (messageOf w e.obj s), ?_, hmsg, ?_,
    getTarget_setTarget_same _ _ _, rfl⟩
  · rw [processEvent_of_snapshot sum c e w s hs]
    simp only [processResource, ht, generateMessageAndSend_of_snapshot sum w _ true s hsn,
      doGenerateMessageAndSend_of_hashOk sum w _ true _ _ _ _ _ hok2]
    rfl
  · rw [hmsg]

/-- C10, witness: `ns/app` is tracked after its first event; its next event
arrives while the pod lookup fails. -/
theorem lookup_error_sends_header_only_witness :
    ∃ c2 t2, processEvent sampleSum
        ⟨[("ns/app", ⟨.deployment appDeployment, 100, hexString (sampleSum appMessage)⟩)],
          [(appMessage, none)]⟩
        ⟨.deployment appDeployment, "update"⟩ (lookupFailsWorld 101) = some c2 ∧
      messageOf (lookupFailsWorld 101) (.deployment appDeployment)
          ⟨"ns", 0, 1, 3, [("app", "web")]⟩
        = header (Obj.deployment appDeployment).key 0 1 3 ∧
      c2.sent = [(appMessage, none)] ++
        [(header (Obj.deployment appDeployment).key 0 1 3,
          (lookupFailsWorld 101).notify (header (Obj.deployment appDeployment).key 0 1 3))] ∧
      getTarget c2.targets (Obj.deployment appDeployment).key = some t2 ∧
      t2.obj = .deployment appDeployment :=
  lookup_error_sends_header_only sampleSum
    [(⟨.deployment appDeployment, "add"⟩, quietWorld 100)]
    ⟨[("ns/app", ⟨.deployment appDeployment, 100, hexString (sampleSum appMessage)⟩)],
      [(appMessage, none)]⟩
    (by decide) ⟨.deployment appDeployment, "update"⟩ (lookupFailsWorld 101)
    ⟨"ns", 0, 1, 3, [("app", "web")]⟩
    ⟨.deployment appDeployment, 100, hexString (sampleSum appMessage)⟩ "connection refused"
    (by decide) (by decide) rfl

end Kubenotify
